import Mathlib

/-!
Verification of the Bulk-SMS dispatcher (TagPay-ict/Bulk-SMS).

This file shallowly embeds the parts of the repository that the claims
concern:

* `src/server/lib/phoneNormalizer.js` — `normalizePhoneNumber`
* `src/server/lib/template.js`       — `hasPlaceholders`
* `src/server/lib/csvParser.js`      — `normalizeCSVData`
* `src/server/worker/index.js`       — `processBatch`, `setupWorker`'s
  job-processing loop (batching, resume, progress writes, failed-batch
  storage)
* `src/server/routes/index.js`       — the upload route's idempotent job
  creation and the SSE progress stream's duplicate suppression

Modelling conventions:

* JavaScript strings are Lean `String`s; character-level work happens on
  `List Char`.
* Machine time (`Date.now()`, `new Date().toISOString()`) is modelled as a
  `Nat` counter threaded through the state, incremented at each
  observation.  Claims only depend on the key *shape*
  `failed_batch:<jobId>:<timestamp>`, never on actual clock values.
* The SMS gateway (`sendSingleSMS` / `sendBulkSMS` in
  `src/server/lib/termii.js`) is an external HTTP service; a run is
  parameterised by the list of outcomes its successive calls produce
  (`none` = the call resolved, `some e` = the call threw with message
  `e`).  An exhausted list means the remaining calls resolve.
* IEEE-754 arithmetic inside the scientific-notation branch of
  `normalizePhoneNumber` (`String(Math.floor(parseFloat(phone)))`) is
  modelled by an arbitrary conversion function `sciConv`; `none` models
  the `NaN` rejection.  All theorems quantify over `sciConv`, so they
  hold for every possible floating-point behaviour.
* BullMQ (the queue substrate) and Redis are external collaborators;
  only the operations the routed code uses are modelled (job lookup,
  add-with-dedup-on-id, SETEX as a prepend to a store list, LPUSH as a
  prepend to an index list).
-/

/-- Substring test on character lists: does `needle` occur inside `hay`?
Models JavaScript `hay.includes(needle)`. -/
def containsSub (hay needle : List Char) : Bool :=
  needle.isPrefixOf hay ||
    match hay with
    | [] => false
    | _ :: t => containsSub t needle

/-- Model of JavaScript `String.prototype.trim` on a character list:
drop whitespace from both ends. -/
def trimChars (l : List Char) : List Char :=
  ((l.dropWhile Char.isWhitespace).reverse.dropWhile Char.isWhitespace).reverse

/-- `trim` lifted to `String`. -/
def trimStr (s : String) : String :=
  (trimChars s.toList).asString

/-- The regex `/[eE]/.test(phone)`: does the string contain an exponent
marker? -/
def hasExpChar (l : List Char) : Bool :=
  l.any fun c => c == 'e' || c == 'E'

/-- The country-code prefix `234` as characters. -/
def ccPrefix : List Char := ['2', '3', '4']

/-- `phone.startsWith('234')`. -/
def startsWith234 (l : List Char) : Bool :=
  ccPrefix.isPrefixOf l

/-- `phone.startsWith('0')`. -/
def startsWith0 (l : List Char) : Bool :=
  match l with
  | '0' :: _ => true
  | _ => false

/-- The format rules of lines 40–78 of the phone normalizer, applied to
the digit-only string. -/
def formatRules (digits : List Char) : Option (List Char) :=
  if startsWith234 digits ∧ digits.length = 13 then some digits
  else if startsWith234 digits ∧ 13 ≤ digits.length then some (digits.take 13)
  else if startsWith0 digits ∧ digits.length = 11 then some (ccPrefix ++ digits.drop 1)
  else if digits.length = 10 then some (ccPrefix ++ digits)
  else if digits.length = 11 ∧ ¬ startsWith0 digits then some (ccPrefix ++ digits)
  else if digits.length = 9 then some (ccPrefix ++ '0' :: digits)
  else if startsWith234 digits ∧ 13 < digits.length then some (digits.take 13)
  else none

/-- The final validation of lines 80–88: accept only a result of exactly
13 digits starting with `234`. -/
def finalValidate (n : List Char) : Option (List Char) :=
  if n.length = 13 ∧ startsWith234 n ∧ n.all Char.isDigit then some n else none

/-- Lines 32–88 of `src/server/lib/phoneNormalizer.js`: strip every
non-digit character, reject if empty, apply the format rules in priority
order, and finally accept only a canonical result. -/
def cleanAndFormat (phone : List Char) : Option (List Char) :=
  let digits := phone.filter Char.isDigit
  if digits = [] then none
  else (formatRules digits).bind finalValidate

/-- `normalizePhoneNumber` from `src/server/lib/phoneNormalizer.js`.

`sciConv` abstracts the scientific-notation branch
`String(Math.floor(parseFloat(phone)))` (IEEE-754; `none` models the
`NaN` / error rejection).  The JS falsy guard `if (!phoneInput)` is the
emptiness test on the string model; a numeric input reaches this function
as its `String(...)` rendering (with `0` and `NaN` rejected by the same
falsy guard). -/
def normalizePhoneNumber (sciConv : String → Option String) (phoneInput : String) :
    Option String :=
  if phoneInput = "" then none
  else
    let phone := trimStr phoneInput
    let converted : Option String :=
      if hasExpChar phone.toList then sciConv phone else some phone
    match converted with
    | none => none
    | some p => (cleanAndFormat p.toList).map List.asString

example : normalizePhoneNumber (fun _ => none) "08123456789" = some "2348123456789" := by decide
example : normalizePhoneNumber (fun _ => none) "+234 812 345 6789" = some "2348123456789" := by decide
example : normalizePhoneNumber (fun _ => none) "123" = none := by decide
example : normalizePhoneNumber (fun _ => none) "" = none := by decide
example : normalizePhoneNumber (fun _ => none) "2348123456789" = some "2348123456789" := by decide

/-- Opening brace character (written via escape because of its special role
in string literals). -/
def lbrace : Char := '\x7b'

/-- Closing brace character. -/
def rbrace : Char := '\x7d'

/-- Word character of the regex class `\w`: ASCII letter, digit or
underscore. -/
def isWordChar (c : Char) : Bool :=
  c.isAlpha || c.isDigit || c == '_'

/-- Does the regex `/\{\{(\w+)\}\}/` match at the very start of `l`?
Since `}` is not a word character, the greedy `\w+` needs no
backtracking: take the maximal word run after the two opening braces and
require two closing braces. -/
def placeholderAt (l : List Char) : Bool :=
  match l with
  | c1 :: c2 :: rest =>
    if c1 == lbrace && c2 == lbrace then
      let w := rest.takeWhile isWordChar
      if w.isEmpty then false
      else
        match rest.drop w.length with
        | d1 :: d2 :: _ => d1 == rbrace && d2 == rbrace
        | _ => false
    else false
  | _ => false

/-- Regex search: does `/\{\{(\w+)\}\}/` match anywhere in the list? -/
def anyPlaceholder (l : List Char) : Bool :=
  placeholderAt l ||
    match l with
    | [] => false
    | _ :: t => anyPlaceholder t

/-- `hasPlaceholders` from `src/server/lib/template.js`:
`/\{\{(\w+)\}\}/.test(template)`. -/
def hasPlaceholders (template : String) : Bool :=
  anyPlaceholder template.toList

example : hasPlaceholders "Hi \x7b\x7bname\x7d\x7d" = true := by decide
example : hasPlaceholders "hello there" = false := by decide
example : hasPlaceholders "x \x7b\x7b \x7d\x7d" = false := by decide

/-- A recipient row as produced by `normalizeCSVData`: the positional
`originalIndex` plus the (ordered) CSV columns.  JavaScript objects keep
insertion order, so an association list is a faithful model; the numeric
`originalIndex` property is kept apart because every phone/column lookup
in the source either filters it out (`typeof val === 'string'`,
`val.length > 5` on a number) or never selects its key. -/
structure Recipient where
  originalIndex : Nat
  fields : List (String × String)
deriving Repr, DecidableEq

/-- `key.toLowerCase()`, character by character. -/
def toLowerChars (l : List Char) : List Char :=
  l.map Char.toLower

/-- Key lookup in a row, `row[key]` (first binding wins, as in an
object). -/
def lookupField (fields : List (String × String)) (k : String) : Option String :=
  (fields.find? fun kv => kv.1 = k).map Prod.snd

/-- The phone-column predicate of `normalizeCSVData`
(`src/server/lib/csvParser.js`, lines 50–53): the key contains `phone`,
or contains `number` but not `account` (case-insensitive). -/
def phoneKeyPred (k : String) : Bool :=
  containsSub (toLowerChars k.toList) "phone".toList ||
    (containsSub (toLowerChars k.toList) "number".toList &&
      !containsSub (toLowerChars k.toList) "account".toList)

/-- `normalizeCSVData` from `src/server/lib/csvParser.js` (lines 40–91):
detect the phone column from the first parsed row, copy every column
trimmed while attaching `originalIndex`, then drop rows whose phone value
is empty (fallback when no phone column was detected: keep rows having
some string value longer than 5 characters).  Input is the output of
`parseCSV` (Papa.parse with lower-cased, whitespace-stripped headers),
one association list per row. -/
def normalizeCSVData (data : List (List (String × String))) : List Recipient :=
  match data with
  | [] => []
  | firstRow :: _ =>
    let phoneKey : Option String :=
      (firstRow.find? fun kv => phoneKeyPred kv.1).map Prod.fst
    (data.enum.map fun ir =>
        ({ originalIndex := ir.1,
           fields := ir.2.map fun kv => (kv.1, trimStr kv.2) } : Recipient)).filter
      fun row =>
        let phoneValue : Option String :=
          match phoneKey with
          | some k => lookupField row.fields k
          | none => (row.fields.map Prod.snd).find? fun v => decide (5 < v.length)
        match phoneValue with
        | some v => v ≠ ""
        | none => false

example :
    normalizeCSVData [[("name", "A"), ("phone", " 0812 ")], [("name", "B"), ("phone", "")]] =
      [{ originalIndex := 0, fields := [("name", "A"), ("phone", "0812")] }] := by decide

/-- The Progress Record written through `job.updateProgress` in
`src/server/worker/index.js`.  JavaScript reads every counter with
`|| 0`, so an absent field and `0` are indistinguishable; they are both
modelled as `0`.  `lastBatchTime` is only ever written (never read back
with a default), so its absence is observable and is modelled with
`Option`. -/
structure Progress where
  total : Nat
  processed : Nat
  failed : Nat
  batches : Nat
  currentBatch : Nat
  lastBatchTime : Option Nat
deriving Repr, DecidableEq

/-- The all-absent progress blob (`job.progress || {}` on a fresh job). -/
def Progress.empty : Progress :=
  { total := 0, processed := 0, failed := 0, batches := 0, currentBatch := 0,
    lastBatchTime := none }

/-- The value stored under a `failed_batch:<jobId>:<timestamp>` key
(worker lines 196–205): the failed recipients each annotated with their
`error` string, a representative `error`, a timestamp and the job id. -/
structure FailedBatchValue where
  batch : List (Recipient × String)
  error : String
  timestamp : Nat
  jobId : String
deriving Repr, DecidableEq

/-- Worker-visible state threaded through a job run:

* `progress` — the job's mutable progress blob (persisted by BullMQ
  across deliveries);
* `writes`  — the trace of every `job.updateProgress` call, in order
  (model-level observation, appended on each write);
* `store`   — Redis `SETEX` writes `(key, value, ttlSeconds)`, newest
  first;
* `index`   — the `failed_batches:<jobId>` list; `LPUSH` prepends;
* `gw`      — outcomes of the remaining gateway calls (`none` resolve,
  `some e` throw `e`); exhausted list means calls resolve;
* `now`     — the clock counter (each timestamp observation ticks it). -/
structure St where
  progress : Progress
  writes : List Progress
  store : List (String × FailedBatchValue × Nat)
  index : List String
  gw : List (Option String)
  now : Nat
deriving Repr, DecidableEq

/-- Observe the clock (`Date.now()` / `new Date()`): returns the current
instant and advances the counter. -/
def tick (st : St) : Nat × St :=
  (st.now, { st with now := st.now + 1 })

/-- `await job.updateProgress(p)`: the blob becomes `p` and the write is
recorded on the trace. -/
def updateProgress (st : St) (p : Progress) : St :=
  { st with progress := p, writes := st.writes ++ [p] }

/-- A fresh worker-visible state with the given gateway outcome script:
empty progress blob, no writes, empty store and index, clock at zero. -/
def initialSt (gw : List (Option String)) : St :=
  { progress := Progress.empty, writes := [], store := [], index := [],
    gw := gw, now := 0 }

/-- Consume the outcome of the next gateway call. -/
def gwNext (gw : List (Option String)) : Option String × List (Option String) :=
  match gw with
  | [] => (none, [])
  | o :: rest => (o, rest)

/-- Worker lines 35–38 / 112–115: find the raw phone value — the first
value of a column whose key contains `phone` (case-insensitive) that is a
non-empty string after trimming; otherwise `''`. -/
def findPhoneRaw (r : Recipient) : String :=
  (((r.fields.filter fun kv => containsSub (toLowerChars kv.1.toList) "phone".toList).map
      Prod.snd).find? fun v => trimStr v ≠ "").getD ""

/-- The shared per-recipient validation of both sending modes (worker
lines 40–69 and 117–126): missing phone, unnormalizable phone, or a
normalized phone number. -/
def classifyPhone (sciConv : String → Option String) (r : Recipient) : String ⊕ String :=
  let raw := findPhoneRaw r
  if raw = "" then Sum.inl "No phone number found"
  else
    match normalizePhoneNumber sciConv raw with
    | none => Sum.inl ("Invalid phone number format: " ++ raw)
    | some ph => Sum.inr ph

/-- Bulk mode, worker lines 134–136: the normalized phone numbers of the
batch members that validated, in order. -/
def bulkValidPhones (sciConv : String → Option String) (batch : List Recipient) :
    List String :=
  batch.filterMap fun r =>
    match classifyPhone sciConv r with
    | Sum.inr ph => some ph
    | Sum.inl _ => none

/-- Bulk mode, worker line 138: the batch members that failed validation,
paired with their error string, in order. -/
def bulkInvalidItems (sciConv : String → Option String) (batch : List Recipient) :
    List (Recipient × String) :=
  batch.filterMap fun r =>
    match classifyPhone sciConv r with
    | Sum.inl e => some (r, e)
    | Sum.inr _ => none

/-- Worker lines 192–210: if the batch accumulated failed recipients,
store one Failed-Batch Record under `failed_batch:<jobId>:<Date.now()>`
with a 7-day TTL (`86400 * 7`), its `error` field taken from the first
failed recipient, and `LPUSH` the key onto `failed_batches:<jobId>`. -/
def storeFailed (jobId : String) (st : St) (failed : List (Recipient × String)) : St :=
  match failed with
  | [] => st
  | f :: _ =>
    let (t1, st) := tick st
    let key := "failed_batch:" ++ jobId ++ ":" ++ toString t1
    let (t2, st) := tick st
    { st with
      store := (key, { batch := failed, error := f.2, timestamp := t2, jobId := jobId },
        86400 * 7) :: st.store,
      index := key :: st.index }

/-- One iteration of the personalized-mode loop (worker lines 31–103):
classify the recipient; on a validation failure record a synthetic
failure and advance `processed` and `failed` by one; otherwise call the
gateway once, advancing `processed` (and `failed` on a thrown send).
The second component accumulates the batch's `failedRecipients`. -/
def personalizedStep (sciConv : String → Option String)
    (acc : St × List (Recipient × String)) (r : Recipient) :
    St × List (Recipient × String) :=
  let (st, failed) := acc
  match classifyPhone sciConv r with
  | Sum.inl err =>
    let p := st.progress
    let (t, st) := tick st
    (updateProgress st
        { p with processed := p.processed + 1, failed := p.failed + 1,
                 currentBatch := 1, lastBatchTime := some t },
      failed ++ [(r, err)])
  | Sum.inr _phone =>
    let (outcome, gw') := gwNext st.gw
    let st := { st with gw := gw' }
    match outcome with
    | none =>
      let p := st.progress
      let (t, st) := tick st
      (updateProgress st
          { p with processed := p.processed + 1, currentBatch := 1,
                   lastBatchTime := some t },
        failed)
    | some e =>
      let p := st.progress
      let (t, st) := tick st
      (updateProgress st
          { p with processed := p.processed + 1, failed := p.failed + 1,
                   currentBatch := 1, lastBatchTime := some t },
        failed ++ [(r, e)])

/-- `processBatch` from `src/server/worker/index.js` (lines 18–217).

Personalized mode iterates `personalizedStep` and then runs the
failed-recipients storage block.  Bulk mode validates all phones first;
with no valid phone it books the whole batch as processed-and-failed and
returns early (skipping the storage block); with a successful bulk send
it books `validPhones.length` processed and `invalidItems.length` failed
and also returns early; only a thrown bulk send reaches the storage
block, with the entire batch appended to the failed list.  The returned
list is the batch's accumulated `failedRecipients`. -/
def processBatch (sciConv : String → Option String) (template jobId : String)
    (st : St) (batch : List Recipient) : St × List (Recipient × String) :=
  if hasPlaceholders template then
    let (st, failed) := batch.foldl (personalizedStep sciConv) (st, [])
    (storeFailed jobId st failed, failed)
  else
    let validPhones := bulkValidPhones sciConv batch
    let invalidItems := bulkInvalidItems sciConv batch
    if validPhones = [] then
      let p := st.progress
      let (t, st) := tick st
      (updateProgress st
          { p with processed := p.processed + batch.length,
                   failed := p.failed + batch.length,
                   currentBatch := batch.length, lastBatchTime := some t },
        invalidItems)
    else
      let (outcome, gw') := gwNext st.gw
      let st := { st with gw := gw' }
      match outcome with
      | none =>
        let p := st.progress
        let (t, st) := tick st
        (updateProgress st
            { p with processed := p.processed + validPhones.length,
                     failed := p.failed + invalidItems.length,
                     currentBatch := validPhones.length, lastBatchTime := some t },
          invalidItems)
      | some e =>
        let failed := invalidItems ++ batch.map fun r => (r, e)
        (storeFailed jobId st failed, failed)

/-- Fuel-indexed helper for `makeBatches` (structural recursion so that
concrete runs reduce in the kernel).  The fuel only needs to dominate the
list length. -/
def makeBatchesAux : Nat → List Recipient → List (List Recipient)
  | _, [] => []
  | 0, _ :: _ => []
  | fuel + 1, a :: t => (a :: t).take 100 :: makeBatchesAux fuel ((a :: t).drop 100)

/-- Worker lines 310–313: split the recipient list into consecutive
batches of `BATCH_SIZE = 100` (`normalizedData.slice(i, i + 100)`). -/
def makeBatches (l : List Recipient) : List (List Recipient) :=
  makeBatchesAux l.length l

/-- Worker lines 275–335: the sequence of batches actually handed to
`processBatch`, given the stored `processed` count.  Processing starts at
batch `floor(processed / 100)`; when resuming strictly inside a batch
(`processed % 100 > 0`), the starting batch is sliced by
`skipCount = processed % 100` in personalized mode and retried in full in
bulk mode. -/
def dispatchedBatches (personalized : Bool) (processedCount : Nat)
    (data : List Recipient) : List (List Recipient) :=
  let batches := makeBatches data
  let startBatchIndex := processedCount / 100
  let skipCount := processedCount % 100
  ((batches.drop startBatchIndex).enum).map fun ib =>
    if ib.1 = 0 ∧ 0 < skipCount ∧ personalized then ib.2.drop skipCount else ib.2

/-- The worker's job-processing function (`setupWorker`,
`src/server/worker/index.js` lines 229–372) for a delivered, not-yet
completed job:

* choose the recipient list (retry payload, or parse + normalize CSV);
* read the existing `processed` count and derive the resume position;
* write the initial progress blob only on a fresh start
  (`startBatchIndex === 0 && processedCount === 0`);
* run `processBatch` over the dispatched batches in order;
* finally re-write the blob ensuring `total` is set
  (`finalProgress.total || totalRecipients`).

The `state === 'completed'` early return, logging, timing and the
inter-batch sleeps (pure rate limiting) are not modelled: the claims
concern delivered runs of non-completed jobs. -/
def runJob (sciConv : String → Option String) (jobId : String)
    (parsed : List (List (String × String))) (recipients : Option (List Recipient))
    (isRetry : Bool) (template : String) (st : St) : St :=
  let normalizedData :=
    match isRetry, recipients with
    | true, some rs => rs
    | _, _ => normalizeCSVData parsed
  let totalRecipients := normalizedData.length
  let totalBatches := (totalRecipients + 99) / 100
  let processedCount := st.progress.processed
  let startBatchIndex := processedCount / 100
  let st :=
    if startBatchIndex = 0 ∧ processedCount = 0 then
      updateProgress st
        { total := totalRecipients, processed := 0, failed := 0,
          batches := totalBatches, currentBatch := 0, lastBatchTime := none }
    else st
  let st :=
    (dispatchedBatches (hasPlaceholders template) processedCount normalizedData).foldl
      (fun s b => (processBatch sciConv template jobId s b).1) st
  let p := st.progress
  updateProgress st
    { p with total := if p.total = 0 then totalRecipients else p.total }

/-- `JSON.stringify` of the nested `progress` object of an SSE snapshot
(`src/server/routes/index.js` lines 142–149).  Counters are read with
`|| 0`; an absent `lastBatchTime` is omitted by `JSON.stringify`. -/
def serializeProgressJSON (p : Progress) : String :=
  "\x7b\"total\":" ++ toString p.total ++
    ",\"processed\":" ++ toString p.processed ++
    ",\"failed\":" ++ toString p.failed ++
    ",\"batches\":" ++ toString p.batches ++
    ",\"currentBatch\":" ++ toString p.currentBatch ++
    (match p.lastBatchTime with
     | none => ""
     | some t => ",\"lastBatchTime\":\"" ++ toString t ++ "\"") ++
    "\x7d"

/-- `JSON.stringify` of a whole SSE snapshot (routes lines 139–151):
job id, job state, the progress object, and — crucially — a *fresh*
top-level `timestamp: new Date().toISOString()` taken at poll time. -/
def serializeSnapshot (jobId state : String) (p : Progress) (timestamp : Nat) : String :=
  "\x7b\"jobId\":\"" ++ jobId ++
    "\",\"state\":\"" ++ state ++
    "\",\"progress\":" ++ serializeProgressJSON p ++
    ",\"timestamp\":\"" ++ toString timestamp ++ "\"\x7d"

/-- Per-subscription state of the Progress Feed: the last serialized
snapshot (`lastProgress`, initially `null`) and the data frames emitted
so far. -/
structure FeedState where
  lastProgress : Option String
  emitted : List String
deriving Repr, DecidableEq

/-- A fresh SSE subscription. -/
def FeedState.init : FeedState :=
  { lastProgress := none, emitted := [] }

/-- One `sendProgress` poll (routes lines 122–158) for a live job:
serialize the observed state and progress with the poll-time timestamp,
and write the frame only if it differs (exact string inequality) from the
previously sent one. -/
def sendProgressStep (jobId state : String) (p : Progress) (timestamp : Nat)
    (fs : FeedState) : FeedState :=
  let data := serializeSnapshot jobId state p timestamp
  if fs.lastProgress = some data then fs
  else { lastProgress := some data, emitted := fs.emitted ++ [data] }

/-- BullMQ job states (spec §3; BullMQ also has transient states the
routed code never branches on). -/
inductive JobState
  | waiting
  | active
  | completed
  | failed
deriving Repr, DecidableEq

/-- A queued job as the upload route sees it. -/
structure QJob where
  id : String
  csvContent : String
  template : String
  channel : String
  state : JobState
deriving Repr, DecidableEq

/-- `smsQueue.getJob(id)`. -/
def getJob (q : List QJob) (i : String) : Option QJob :=
  q.find? fun j => j.id = i

/-- BullMQ `Queue.add` with a custom `jobId` (external substrate,
spec §6): adding an id that is already present returns the existing job
and creates nothing; otherwise the job is appended. -/
def queueAdd (q : List QJob) (j : QJob) : QJob × List QJob :=
  match getJob q j.id with
  | some ex => (ex, q)
  | none => (j, q ++ [j])

/-- Routes lines 42–44: the deterministic job id
`sms-` + first 16 hex characters of `md5(csvContent + template + channel)`.
The MD5 digest itself (Node's `crypto`) is abstracted as `md5hex`. -/
def jobIdOf (md5hex : String → String) (csvContent template channel : String) : String :=
  "sms-" ++ (md5hex (csvContent ++ template ++ channel)).take 16

/-- Responses of the upload route that matter to the claims. -/
inductive UploadResp
  | badRequest (msg : String)
  | alreadyExists (jobId : String) (msg : String)
  | created (jobId : String)
deriving Repr, DecidableEq

/-- The `POST /api/upload` handler (`src/server/routes/index.js` lines
15–101): validate file and template, derive the content-hash job id,
return the existing job when it is already completed / active / waiting,
otherwise add (the substrate still dedups on the id). -/
def uploadRoute (md5hex : String → String) (q : List QJob) (hasFile : Bool)
    (csvContent : String) (template : Option String) (channel : String) :
    UploadResp × List QJob :=
  if ¬ hasFile then (UploadResp.badRequest "No CSV file provided", q)
  else
    match template with
    | none => (UploadResp.badRequest "Template is required", q)
    | some tpl =>
      let jobId := jobIdOf md5hex csvContent tpl channel
      let add : Unit → UploadResp × List QJob := fun _ =>
        let jq := queueAdd q
          { id := jobId, csvContent := csvContent, template := tpl,
            channel := channel, state := JobState.waiting }
        (UploadResp.created jq.1.id, jq.2)
      match getJob q jobId with
      | some ex =>
        match ex.state with
        | JobState.completed => (UploadResp.alreadyExists jobId "Job already completed", q)
        | JobState.active =>
          (UploadResp.alreadyExists jobId "Job already exists and is processing", q)
        | JobState.waiting =>
          (UploadResp.alreadyExists jobId "Job already exists and is processing", q)
        | JobState.failed => add ()
      | none => add ()

/-- Substrate-side state transition of the job with the given id
(owned by BullMQ, spec §3). -/
def setJobState (q : List QJob) (i : String) (s : JobState) : List QJob :=
  q.map fun j => if j.id = i then { j with state := s } else j

theorem finalValidate_canonical {m n : List Char} (h : finalValidate m = some n) :
    n.length = 13 ∧ startsWith234 n = true ∧ n.all Char.isDigit = true := by
  unfold finalValidate at h
  split at h
  · cases h; assumption
  · exact absurd h (by simp)

theorem cleanAndFormat_canonical {l n : List Char} (h : cleanAndFormat l = some n) :
    n.length = 13 ∧ startsWith234 n = true ∧ n.all Char.isDigit = true := by
  unfold cleanAndFormat at h
  dsimp only at h
  split at h
  · exact absurd h (by simp)
  · rw [Option.bind_eq_some] at h
    obtain ⟨m, _, hm⟩ := h
    exact finalValidate_canonical hm

theorem normPhone_canonical {sciConv : String → Option String} {input out : String}
    (h : normalizePhoneNumber sciConv input = some out) :
    out.toList.length = 13 ∧ startsWith234 out.toList = true ∧
      out.toList.all Char.isDigit = true := by
  unfold normalizePhoneNumber at h
  split at h
  · exact absurd h (by simp)
  · dsimp only at h
    rcases hconv : (if hasExpChar (trimStr input).toList = true then sciConv (trimStr input)
        else some (trimStr input)) with _ | p
    · rw [hconv] at h
      exact absurd h (by simp)
    · rw [hconv, Option.map_eq_some'] at h
      obtain ⟨n, hn, rfl⟩ := h
      have hcan := cleanAndFormat_canonical hn
      rw [List.toList_asString]
      exact hcan

/-- C6: for every input value (every string; a numeric input reaches the
function as its `String(...)` rendering, with falsy `0`/`NaN` already
rejected) and for every possible behaviour of the IEEE-754
scientific-notation conversion, `normalizePhoneNumber` returns either
`null` or a string of exactly 13 characters, entirely numeric, starting
with the country code `234` — never any other shape. -/
theorem normalizePhoneNumber_shape (sciConv : String → Option String)
    (input out : String) (h : normalizePhoneNumber sciConv input = some out) :
    out.length = 13 ∧ startsWith234 out.toList = true ∧
      out.toList.all Char.isDigit = true := by
  obtain ⟨h13, hp, hd⟩ := normPhone_canonical h
  exact ⟨h13, hp, hd⟩

theorem normalizePhoneNumber_shape_witness :
    normalizePhoneNumber (fun _ => none) "0812 345 6789" = some "2348123456789" ∧
      ("2348123456789".length = 13 ∧ startsWith234 "2348123456789".toList = true ∧
        "2348123456789".toList.all Char.isDigit = true) :=
  ⟨by decide,
    normalizePhoneNumber_shape (fun _ => none) "0812 345 6789" "2348123456789" (by decide)⟩

theorem char_digit_not_ws {c : Char} (h : c.isDigit = true) : c.isWhitespace = false := by
  unfold Char.isWhitespace
  by_contra hw
  simp only [Bool.not_eq_false, Bool.or_eq_true, decide_eq_true_eq] at hw
  rcases hw with ((h1 | h2) | h3) | h4 <;> subst_vars <;> simp [Char.isDigit] at h

theorem dropWhile_eq_self_of_none {p : Char → Bool} :
    ∀ {l : List Char}, (∀ c ∈ l, p c = false) → l.dropWhile p = l
  | [], _ => rfl
  | a :: t, h => by simp [List.dropWhile, h a (by simp)]

theorem trimChars_eq_self {l : List Char} (h : ∀ c ∈ l, c.isWhitespace = false) :
    trimChars l = l := by
  unfold trimChars
  rw [dropWhile_eq_self_of_none h,
    dropWhile_eq_self_of_none (fun c hc => h c (List.mem_reverse.mp hc)), List.reverse_reverse]

theorem canon_identity (sciConv : String → Option String) (l : List Char)
    (h13 : l.length = 13) (hp : startsWith234 l = true) (hd : l.all Char.isDigit = true) :
    normalizePhoneNumber sciConv l.asString = some l.asString := by
  have hdall : ∀ c ∈ l, c.isDigit = true := by simpa [List.all_eq_true] using hd
  have hnws : ∀ c ∈ l, c.isWhitespace = false := fun c hc => char_digit_not_ws (hdall c hc)
  have hne' : l ≠ [] := by intro hcon; simp [hcon] at h13
  have hne : l.asString ≠ "" := by
    intro hcon
    rw [List.asString_eq] at hcon
    simp [hcon] at h13
  have hdata : l.asString.toList = l := List.toList_asString l
  have htrim : trimStr l.asString = l.asString := by
    unfold trimStr
    rw [hdata, trimChars_eq_self hnws]
  have hexp : hasExpChar l = false := by
    rw [hasExpChar, List.any_eq_false]
    intro c hc
    have hdc := hdall c hc
    by_contra hb
    rw [Bool.or_eq_true] at hb
    rcases hb with hb | hb <;> rw [beq_iff_eq] at hb <;> subst hb <;>
      exact absurd hdc (by decide)
  have hfilter : l.filter Char.isDigit = l := List.filter_eq_self.mpr hdall
  have hcf : cleanAndFormat l = some l := by
    unfold cleanAndFormat
    dsimp only
    rw [hfilter, if_neg hne']
    unfold formatRules
    rw [if_pos ⟨hp, h13⟩]
    show finalValidate l = some l
    unfold finalValidate
    rw [if_pos ⟨h13, hp, hd⟩]
  unfold normalizePhoneNumber
  rw [if_neg hne]
  dsimp only
  rw [htrim, hdata, hexp]
  have hdata2 : l.asString.data = l := hdata
  simp [hdata2, hcf]

/-- C7: `normalizePhoneNumber` is idempotent on accepted inputs — any
accepted output normalizes to itself — and, in particular, it is the
identity on every 13-digit string already prefixed with the country code
`234`. -/
theorem normalizePhoneNumber_idem :
    (∀ (sciConv : String → Option String) (x y : String),
        normalizePhoneNumber sciConv x = some y →
          normalizePhoneNumber sciConv y = some y) ∧
    (∀ (sciConv : String → Option String) (s : String),
        s.toList.length = 13 → startsWith234 s.toList = true →
          s.toList.all Char.isDigit = true →
          normalizePhoneNumber sciConv s = some s) := by
  have key : ∀ (sciConv : String → Option String) (s : String),
      s.toList.length = 13 → startsWith234 s.toList = true →
        s.toList.all Char.isDigit = true → normalizePhoneNumber sciConv s = some s := by
    intro sciConv s h13 hp hd
    have hres := canon_identity sciConv s.toList h13 hp hd
    rwa [String.asString_toList] at hres
  refine ⟨fun sciConv x y h => ?_, key⟩
  obtain ⟨h13, hp, hd⟩ := normPhone_canonical h
  exact key sciConv y h13 hp hd

theorem normalizePhoneNumber_idem_witness :
    normalizePhoneNumber (fun _ => none) "2348123456789" = some "2348123456789" :=
  normalizePhoneNumber_idem.1 (fun _ => none) "08123456789" "2348123456789" (by decide)

theorem makeBatchesAux_congr (fuel : Nat) :
    ∀ (fuel' : Nat) (l : List Recipient), l.length ≤ fuel → l.length ≤ fuel' →
      makeBatchesAux fuel l = makeBatchesAux fuel' l := by
  induction fuel with
  | zero =>
    intro fuel' l h h'
    have hl : l = [] := List.eq_nil_of_length_eq_zero (Nat.le_zero.mp h)
    subst hl
    cases fuel' <;> rfl
  | succ f ih =>
    intro fuel' l h h'
    cases l with
    | nil => cases fuel' <;> rfl
    | cons a t =>
      cases fuel' with
      | zero => simp at h'
      | succ f' =>
        unfold makeBatchesAux
        congr 1
        apply ih
        · simp only [List.length_drop, List.length_cons] at *
          omega
        · simp only [List.length_drop, List.length_cons] at *
          omega

theorem makeBatches_cons {l : List Recipient} (h : l ≠ []) :
    makeBatches l = l.take 100 :: makeBatches (l.drop 100) := by
  cases l with
  | nil => exact absurd rfl h
  | cons a t =>
    show makeBatchesAux (a :: t).length (a :: t) = _
    rw [show (a :: t).length = t.length + 1 from rfl]
    unfold makeBatchesAux
    congr 1
    apply makeBatchesAux_congr
    · simp only [List.length_drop, List.length_cons]
      omega
    · exact le_rfl

theorem join_makeBatches_aux (n : Nat) :
    ∀ (l : List Recipient), l.length ≤ n → (makeBatches l).flatten = l := by
  induction n with
  | zero =>
    intro l h
    have hl : l = [] := List.eq_nil_of_length_eq_zero (Nat.le_zero.mp h)
    subst hl
    rfl
  | succ n ih =>
    intro l h
    cases hl : l with
    | nil => rfl
    | cons a t =>
      subst hl
      rw [makeBatches_cons (by simp)]
      rw [List.flatten_cons, ih ((a :: t).drop 100)
        (by simp only [List.length_drop, List.length_cons] at h ⊢; omega)]
      exact List.take_append_drop 100 (a :: t)

theorem join_makeBatches (l : List Recipient) : (makeBatches l).flatten = l :=
  join_makeBatches_aux l.length l le_rfl

theorem makeBatches_drop (q : Nat) :
    ∀ (l : List Recipient), (makeBatches l).drop q = makeBatches (l.drop (100 * q)) := by
  induction q with
  | zero => intro l; simp
  | succ q ih =>
    intro l
    cases hl : l with
    | nil => rfl
    | cons a t =>
      subst hl
      rw [makeBatches_cons (by simp)]
      have harith : 100 + 100 * q = 100 * (q + 1) := by ring_nf
      rw [List.drop_succ_cons, ih ((a :: t).drop 100), List.drop_drop, harith]

theorem dispatch_map_enumFrom (P : Prop) [Decidable P] (s : Nat) :
    ∀ (n : Nat) (bs : List (List Recipient)), n ≠ 0 →
      (List.enumFrom n bs).map
          (fun ib => if ib.1 = 0 ∧ P then ib.2.drop s else ib.2) = bs := by
  intro n bs
  induction bs generalizing n with
  | nil => intro _; rfl
  | cons b t ih =>
    intro hn
    simp only [List.enumFrom, List.map]
    rw [if_neg fun hcon => hn hcon.1]
    rw [ih (n + 1) (by omega)]

theorem drop_take_append (s : Nat) (hs : s ≤ 100) (m : List Recipient) :
    (m.take 100).drop s ++ m.drop 100 = m.drop s := by
  conv_rhs => rw [← List.take_append_drop 100 m, List.drop_append_eq_append_drop]
  rcases le_or_lt s m.length with hms | hms
  · have h0 : s - (m.take 100).length = 0 := by
      rw [List.length_take]
      omega
    rw [h0, List.drop_zero]
  · have h1 : m.drop 100 = [] := by
      rcases le_or_lt 100 m.length with h100 | h100
      · have : s ≤ 100 := hs
        omega
      · exact List.drop_eq_nil_of_le (by omega)
    simp [h1]

theorem dispatched_join_personalized (k : Nat) (data : List Recipient) (hk : 0 < k % 100) :
    (dispatchedBatches true k data).flatten = data.drop k := by
  unfold dispatchedBatches
  dsimp only
  rw [makeBatches_drop]
  have hsplit : data.drop k = (data.drop (100 * (k / 100))).drop (k % 100) := by
    rw [List.drop_drop]
    congr 1
    omega
  cases hmm : data.drop (100 * (k / 100)) with
  | nil =>
    simp [hsplit, hmm, makeBatches, makeBatchesAux]
  | cons a t =>
    rw [makeBatches_cons (by simp), List.enum_cons]
    simp only [List.map_cons]
    rw [if_pos (⟨trivial, hk, trivial⟩ : True ∧ 0 < k % 100 ∧ True)]
    rw [List.flatten_cons]
    rw [dispatch_map_enumFrom (0 < k % 100 ∧ True) (k % 100) 1 _ (by omega)]
    rw [join_makeBatches ((a :: t).drop 100)]
    rw [hsplit, hmm]
    exact drop_take_append (k % 100) (by omega) (a :: t)

/-- C2 -/
theorem personalized_resume_exact (template : String) (data : List Recipient) (k : Nat)
    (hpers : hasPlaceholders template = true) (hk : 0 < k % 100) :
    (dispatchedBatches (hasPlaceholders template) k data).flatten = data.drop k := by
  rw [hpers]
  exact dispatched_join_personalized k data hk

/-- C3 -/
theorem bulk_resume_full_batch (template : String) (data : List Recipient) (k : Nat)
    (hbulk : hasPlaceholders template = false) (_hk : 0 < k % 100) :
    dispatchedBatches (hasPlaceholders template) k data =
      (makeBatches data).drop (k / 100) := by
  rw [hbulk]
  unfold dispatchedBatches
  dsimp only
  have hmap : ∀ bs : List (List Recipient),
      bs.enum.map (fun ib => if ib.1 = 0 ∧ 0 < k % 100 ∧ false = true
        then ib.2.drop (k % 100) else ib.2) = bs.enum.map Prod.snd := by
    intro bs
    apply List.map_congr_left
    intro ib _
    rw [if_neg fun hcon => by simpa using hcon.2.2]
  rw [hmap, List.enum_map_snd]

theorem personalized_resume_exact_witness :
    hasPlaceholders "Hi \x7b\x7bname\x7d\x7d" = true ∧ 0 < 1 % 100 ∧
      (dispatchedBatches (hasPlaceholders "Hi \x7b\x7bname\x7d\x7d") 1
          [⟨0, [("phone", "08123456789")]⟩, ⟨1, [("phone", "08123456780")]⟩]).flatten =
        ([⟨0, [("phone", "08123456789")]⟩, ⟨1, [("phone", "08123456780")]⟩] :
          List Recipient).drop 1 :=
  ⟨by decide, by decide,
    personalized_resume_exact "Hi \x7b\x7bname\x7d\x7d"
      [⟨0, [("phone", "08123456789")]⟩, ⟨1, [("phone", "08123456780")]⟩] 1
      (by decide) (by decide)⟩

theorem bulk_resume_full_batch_witness :
    hasPlaceholders "hello" = false ∧ 0 < 101 % 100 ∧
      dispatchedBatches (hasPlaceholders "hello") 101
          [⟨0, [("phone", "08123456789")]⟩, ⟨1, [("phone", "08123456780")]⟩] =
        (makeBatches
          [⟨0, [("phone", "08123456789")]⟩, ⟨1, [("phone", "08123456780")]⟩]).drop
            (101 / 100) :=
  ⟨by decide, by decide,
    bulk_resume_full_batch "hello"
      [⟨0, [("phone", "08123456789")]⟩, ⟨1, [("phone", "08123456780")]⟩] 101
      (by decide) (by decide)⟩

/-- The write trace of a job, with the current progress blob appended
(every `updateProgress` keeps `progress` equal to the last write, so this
is the full sequence of observable Progress Records). -/
def MonoTrace (st : St) : Prop :=
  List.Chain' (fun a b => a.processed ≤ b.processed) (st.writes ++ [st.progress])

theorem monoTrace_last {st : St} (h : MonoTrace st) :
    ∀ x ∈ st.writes.getLast?, x.processed ≤ st.progress.processed := by
  have := (List.chain'_append.mp h).2.2
  intro x hx
  exact this x hx st.progress rfl

theorem updateProgress_mono {st : St} {p : Progress} (h : MonoTrace st)
    (hle : st.progress.processed ≤ p.processed) : MonoTrace (updateProgress st p) := by
  unfold MonoTrace updateProgress
  dsimp only
  rw [List.append_assoc]
  rw [List.chain'_append]
  have hsplit := List.chain'_append.mp h
  refine ⟨hsplit.1, ?_, ?_⟩
  · simp
  · intro x hx y hy
    simp only [List.singleton_append, List.head?_cons, Option.mem_def,
      Option.some.injEq] at hy
    subst hy
    exact le_trans (monoTrace_last h x hx) hle

theorem personalizedStep_mono (sciConv : String → Option String)
    (acc : St × List (Recipient × String)) (r : Recipient) (h : MonoTrace acc.1) :
    MonoTrace (personalizedStep sciConv acc r).1 := by
  obtain ⟨st, failed⟩ := acc
  unfold personalizedStep
  dsimp only at h ⊢
  cases classifyPhone sciConv r with
  | inl err =>
    exact updateProgress_mono h (by simp [tick])
  | inr ph =>
    cases hgw : gwNext st.gw with
    | mk outcome gw' =>
      cases outcome with
      | none => exact updateProgress_mono h (by simp [tick])
      | some e => exact updateProgress_mono h (by simp [tick])

theorem foldl_pair_mono {β : Type} (f : St × List β → Recipient → St × List β)
    (hf : ∀ acc r, MonoTrace acc.1 → MonoTrace (f acc r).1) :
    ∀ (l : List Recipient) (acc : St × List β), MonoTrace acc.1 →
      MonoTrace (l.foldl f acc).1 := by
  intro l
  induction l with
  | nil => intro acc h; exact h
  | cons r t ih => intro acc h; exact ih (f acc r) (hf acc r h)

theorem storeFailed_mono {jobId : String} {st : St} {failed : List (Recipient × String)}
    (h : MonoTrace st) : MonoTrace (storeFailed jobId st failed) := by
  unfold storeFailed
  cases failed with
  | nil => exact h
  | cons f fs => exact h

theorem processBatch_mono (sciConv : String → Option String) (template jobId : String)
    (st : St) (batch : List Recipient) (h : MonoTrace st) :
    MonoTrace (processBatch sciConv template jobId st batch).1 := by
  unfold processBatch
  cases hasPlaceholders template with
  | true =>
    dsimp only
    exact storeFailed_mono
      (foldl_pair_mono (personalizedStep sciConv) (personalizedStep_mono sciConv) batch (st, []) h)
  | false =>
    dsimp only
    by_cases hv : bulkValidPhones sciConv batch = []
    · rw [if_pos hv]
      exact updateProgress_mono h (by simp [tick])
    · rw [if_neg hv]
      cases hgw : gwNext st.gw with
      | mk outcome gw' =>
        cases outcome with
        | none => exact updateProgress_mono h (by simp [tick])
        | some e => exact storeFailed_mono h

theorem foldl_batches_mono (sciConv : String → Option String) (template jobId : String) :
    ∀ (bs : List (List Recipient)) (st : St), MonoTrace st →
      MonoTrace (bs.foldl (fun s b => (processBatch sciConv template jobId s b).1) st) := by
  intro bs
  induction bs with
  | nil => intro st h; exact h
  | cons b t ih =>
    intro st h
    exact ih _ (processBatch_mono sciConv template jobId st b h)

/-- C1 (amended): over the lifetime of a job — the initial write, every
per-recipient write in personalized mode, every per-batch write in bulk
mode, the final write, and any sequence of resumed runs — the `processed`
counter of the Progress Record is monotonically non-decreasing.  (The
bounds `failed <= processed` and `processed <= total` of the original
claim do *not* hold after every write; see the counterexample.) -/
theorem runJob_processed_monotone (sciConv : String → Option String) (jobId : String)
    (parsed : List (List (String × String))) (recipients : Option (List Recipient))
    (isRetry : Bool) (template : String) (st : St) (h : MonoTrace st) :
    MonoTrace (runJob sciConv jobId parsed recipients isRetry template st) := by
  unfold runJob
  dsimp only
  refine updateProgress_mono ?_ (le_refl _)
  apply foldl_batches_mono
  by_cases hinit : st.progress.processed / 100 = 0 ∧ st.progress.processed = 0
  · rw [if_pos hinit]
    exact updateProgress_mono h (le_of_eq hinit.2)
  · rw [if_neg hinit]
    exact h

theorem runJob_processed_monotone_witness :
    MonoTrace (initialSt []) ∧
      MonoTrace (runJob (fun _ => none) "job-w" [[("phone", "08123456789")]] none false
        "hello" (initialSt [])) :=
  ⟨List.chain'_singleton _, by
    apply runJob_processed_monotone
    exact List.chain'_singleton _⟩

/-- C1 counterexample: a bulk-uniform job over 3 recipients of which 2
have unnormalizable phones and 1 is valid, with a successful gateway
call.  The bulk success write adds only the valid count to `processed`
but the whole invalid count to `failed`, so the last write of the run has
`failed = 2 > 1 = processed`, refuting `failed <= processed` after every
write. -/
theorem progress_bounds_counterexample :
    (runJob (fun _ => none) "job-c1"
        [[("phone", "123")], [("phone", "456")], [("phone", "08123456789")]] none false
        "hello" (initialSt [])).progress.processed = 1 ∧
      (runJob (fun _ => none) "job-c1"
        [[("phone", "123")], [("phone", "456")], [("phone", "08123456789")]] none false
        "hello" (initialSt [])).progress.failed = 2 ∧
      (runJob (fun _ => none) "job-c1"
        [[("phone", "123")], [("phone", "456")], [("phone", "08123456789")]] none false
        "hello" (initialSt [])).writes.getLast? = some
        (runJob (fun _ => none) "job-c1"
          [[("phone", "123")], [("phone", "456")], [("phone", "08123456789")]] none false
          "hello" (initialSt [])).progress ∧
      ¬ (runJob (fun _ => none) "job-c1"
        [[("phone", "123")], [("phone", "456")], [("phone", "08123456789")]] none false
        "hello" (initialSt [])).progress.failed ≤
        (runJob (fun _ => none) "job-c1"
          [[("phone", "123")], [("phone", "456")], [("phone", "08123456789")]] none false
          "hello" (initialSt [])).progress.processed :=
  ⟨by decide, by decide, by decide, by decide⟩

/-- C4 (amended): for every bulk-uniform batch with at least one valid
phone and no invalid ones whose `sendBulk` call throws `e`, exactly one
Failed-Batch Record is written, keyed `failed_batch:<jobId>:<timestamp>`
with a 7-day TTL, containing one entry per batch member, all carrying the
error string `e`, and the key is prepended to the job's failed-batch
index — but the job's progress bookkeeping is *not* touched by this
path: the Progress Record and the write trace are unchanged. -/
theorem bulk_gateway_failure_record (sciConv : String → Option String)
    (template jobId : String) (st : St) (batch : List Recipient) (e : String)
    (rest : List (Option String))
    (hbulk : hasPlaceholders template = false)
    (hvalid : bulkValidPhones sciConv batch ≠ [])
    (hinv : bulkInvalidItems sciConv batch = [])
    (hgw : st.gw = some e :: rest) :
    (processBatch sciConv template jobId st batch).1.store =
        ("failed_batch:" ++ jobId ++ ":" ++ toString st.now,
          ⟨batch.map fun r => (r, e), e, st.now + 1, jobId⟩, 86400 * 7) :: st.store ∧
      (processBatch sciConv template jobId st batch).1.index =
        ("failed_batch:" ++ jobId ++ ":" ++ toString st.now) :: st.index ∧
      (processBatch sciConv template jobId st batch).1.progress = st.progress ∧
      (processBatch sciConv template jobId st batch).1.writes = st.writes ∧
      (processBatch sciConv template jobId st batch).2 = batch.map fun r => (r, e) := by
  have hbatch : batch ≠ [] := by
    intro hcon
    subst hcon
    exact hvalid rfl
  unfold processBatch
  rw [hbulk]
  simp only [Bool.false_eq_true, if_false]
  rw [if_neg hvalid, hgw]
  dsimp only [gwNext]
  rw [hinv]
  simp only [List.nil_append]
  cases batch with
  | nil => exact absurd rfl hbatch
  | cons b bs =>
    simp only [List.map_cons]
    unfold storeFailed
    dsimp only [tick]
    refine ⟨?_, ?_, ?_, ?_, ?_⟩ <;> (first | rfl | trivial)

theorem bulk_gateway_failure_record_witness :
    (hasPlaceholders "hello" = false ∧
        bulkValidPhones (fun _ => none) [⟨0, [("phone", "08123456789")]⟩] ≠ [] ∧
        bulkInvalidItems (fun _ => none) [⟨0, [("phone", "08123456789")]⟩] = [] ∧
        (initialSt [some "boom"]).gw = some "boom" :: []) ∧
      (processBatch (fun _ => none) "hello" "job-w4" (initialSt [some "boom"])
          [⟨0, [("phone", "08123456789")]⟩]).1.progress =
        (initialSt [some "boom"]).progress :=
  ⟨⟨by decide, by decide, by decide, by decide⟩,
    (bulk_gateway_failure_record (fun _ => none) "hello" "job-w4" (initialSt [some "boom"])
      [⟨0, [("phone", "08123456789")]⟩] "boom" [] (by decide) (by decide) (by decide)
      (by decide)).2.2.1⟩

/-- C4 counterexample: a bulk batch of 100 recipients, all with valid
phones, whose `sendBulk` throws.  One Failed-Batch Record with 100
entries sharing the error string is written — but the batch is *not*
accounted as failed in the progress bookkeeping: no progress write
happens at all (`writes = []`, `failed = 0`, `processed = 0`). -/
theorem bulk_gateway_failure_counterexample :
    (processBatch (fun _ => none) "hello" "job-c4"
          (initialSt [some "Termii API error: err"])
          ((List.range 100).map fun i => ⟨i, [("phone", "08123456789")]⟩)).1.store.length
        = 1 ∧
      (processBatch (fun _ => none) "hello" "job-c4"
          (initialSt [some "Termii API error: err"])
          ((List.range 100).map fun i => ⟨i, [("phone", "08123456789")]⟩)).2.length = 100 ∧
      (∀ p ∈ (processBatch (fun _ => none) "hello" "job-c4"
          (initialSt [some "Termii API error: err"])
          ((List.range 100).map fun i => ⟨i, [("phone", "08123456789")]⟩)).2,
        p.2 = "Termii API error: err") ∧
      (processBatch (fun _ => none) "hello" "job-c4"
          (initialSt [some "Termii API error: err"])
          ((List.range 100).map fun i => ⟨i, [("phone", "08123456789")]⟩)).1.writes = [] ∧
      (processBatch (fun _ => none) "hello" "job-c4"
          (initialSt [some "Termii API error: err"])
          ((List.range 100).map fun i => ⟨i, [("phone", "08123456789")]⟩)).1.progress.failed
        = 0 ∧
      (processBatch (fun _ => none) "hello" "job-c4"
          (initialSt [some "Termii API error: err"])
          ((List.range 100).map fun i => ⟨i, [("phone", "08123456789")]⟩)).1.progress.processed
        = 0 :=
  ⟨by decide, by decide, by decide, by decide, by decide, by decide⟩

/-- C5 counterexample: the end-to-end scenario — 5 parsed CSV rows,
template `Hi {{name}}`, recipient 3 (index 2) with an empty phone field,
all gateway calls succeeding — does *not* end with
`{total:5, processed:5, failed:1}` and does not write any Failed-Batch
Record: the empty-phone row is filtered out by `normalizeCSVData` before
the worker ever sees it. -/
theorem scenario_b_counterexample :
    ¬ ((runJob (fun _ => none) "job-c5"
          [[("name", "R1"), ("phone", "08123456789")],
            [("name", "R2"), ("phone", "08123456789")],
            [("name", "R3"), ("phone", "")],
            [("name", "R4"), ("phone", "08123456789")],
            [("name", "R5"), ("phone", "08123456789")]] none false
          "Hi \x7b\x7bname\x7d\x7d" (initialSt [])).progress.total = 5 ∧
        (runJob (fun _ => none) "job-c5"
          [[("name", "R1"), ("phone", "08123456789")],
            [("name", "R2"), ("phone", "08123456789")],
            [("name", "R3"), ("phone", "")],
            [("name", "R4"), ("phone", "08123456789")],
            [("name", "R5"), ("phone", "08123456789")]] none false
          "Hi \x7b\x7bname\x7d\x7d" (initialSt [])).progress.processed = 5 ∧
        (runJob (fun _ => none) "job-c5"
          [[("name", "R1"), ("phone", "08123456789")],
            [("name", "R2"), ("phone", "08123456789")],
            [("name", "R3"), ("phone", "")],
            [("name", "R4"), ("phone", "08123456789")],
            [("name", "R5"), ("phone", "08123456789")]] none false
          "Hi \x7b\x7bname\x7d\x7d" (initialSt [])).progress.failed = 1) ∧
      (runJob (fun _ => none) "job-c5"
        [[("name", "R1"), ("phone", "08123456789")],
          [("name", "R2"), ("phone", "08123456789")],
          [("name", "R3"), ("phone", "")],
          [("name", "R4"), ("phone", "08123456789")],
          [("name", "R5"), ("phone", "08123456789")]] none false
        "Hi \x7b\x7bname\x7d\x7d" (initialSt [])).store = [] :=
  ⟨by decide, by decide⟩

/-- C5 (amended): in the scenario of End-to-end scenario B — 5 parsed
rows, template `Hi {{name}}` (personalized mode), recipient 3 with an
empty phone field, all gateway sends succeeding — `normalizeCSVData`
filters the empty-phone row out (keeping original indices 0, 1, 3, 4),
so the job runs over 4 recipients and finishes with final progress
`{total:4, processed:4, failed:0}`, writing no Failed-Batch Record and
no failed-batch index entry. -/
theorem scenario_b_actual :
    (normalizeCSVData
        [[("name", "R1"), ("phone", "08123456789")],
          [("name", "R2"), ("phone", "08123456789")],
          [("name", "R3"), ("phone", "")],
          [("name", "R4"), ("phone", "08123456789")],
          [("name", "R5"), ("phone", "08123456789")]]).map Recipient.originalIndex =
        [0, 1, 3, 4] ∧
      (runJob (fun _ => none) "job-c5"
        [[("name", "R1"), ("phone", "08123456789")],
          [("name", "R2"), ("phone", "08123456789")],
          [("name", "R3"), ("phone", "")],
          [("name", "R4"), ("phone", "08123456789")],
          [("name", "R5"), ("phone", "08123456789")]] none false
        "Hi \x7b\x7bname\x7d\x7d" (initialSt [])).progress.total = 4 ∧
      (runJob (fun _ => none) "job-c5"
        [[("name", "R1"), ("phone", "08123456789")],
          [("name", "R2"), ("phone", "08123456789")],
          [("name", "R3"), ("phone", "")],
          [("name", "R4"), ("phone", "08123456789")],
          [("name", "R5"), ("phone", "08123456789")]] none false
        "Hi \x7b\x7bname\x7d\x7d" (initialSt [])).progress.processed = 4 ∧
      (runJob (fun _ => none) "job-c5"
        [[("name", "R1"), ("phone", "08123456789")],
          [("name", "R2"), ("phone", "08123456789")],
          [("name", "R3"), ("phone", "")],
          [("name", "R4"), ("phone", "08123456789")],
          [("name", "R5"), ("phone", "08123456789")]] none false
        "Hi \x7b\x7bname\x7d\x7d" (initialSt [])).progress.failed = 0 ∧
      (runJob (fun _ => none) "job-c5"
        [[("name", "R1"), ("phone", "08123456789")],
          [("name", "R2"), ("phone", "08123456789")],
          [("name", "R3"), ("phone", "")],
          [("name", "R4"), ("phone", "08123456789")],
          [("name", "R5"), ("phone", "08123456789")]] none false
        "Hi \x7b\x7bname\x7d\x7d" (initialSt [])).store = [] ∧
      (runJob (fun _ => none) "job-c5"
        [[("name", "R1"), ("phone", "08123456789")],
          [("name", "R2"), ("phone", "08123456789")],
          [("name", "R3"), ("phone", "")],
          [("name", "R4"), ("phone", "08123456789")],
          [("name", "R5"), ("phone", "08123456789")]] none false
        "Hi \x7b\x7bname\x7d\x7d" (initialSt [])).index = [] :=
  ⟨by decide, by decide, by decide, by decide, by decide, by decide⟩

theorem personalizedStep_store (sciConv : String → Option String)
    (acc : St × List (Recipient × String)) (r : Recipient) :
    (personalizedStep sciConv acc r).1.store = acc.1.store ∧
      (personalizedStep sciConv acc r).1.index = acc.1.index := by
  obtain ⟨st, failed⟩ := acc
  unfold personalizedStep
  dsimp only
  cases classifyPhone sciConv r with
  | inl err => exact ⟨rfl, rfl⟩
  | inr ph =>
    cases hgw : gwNext st.gw with
    | mk outcome gw' =>
      cases outcome with
      | none => exact ⟨rfl, rfl⟩
      | some e => exact ⟨rfl, rfl⟩

theorem personalized_fold_store (sciConv : String → Option String) :
    ∀ (l : List Recipient) (acc : St × List (Recipient × String)),
      ((l.foldl (personalizedStep sciConv) acc).1.store = acc.1.store ∧
        (l.foldl (personalizedStep sciConv) acc).1.index = acc.1.index) := by
  intro l
  induction l with
  | nil => intro acc; exact ⟨rfl, rfl⟩
  | cons r t ih =>
    intro acc
    have hstep := personalizedStep_store sciConv acc r
    have hrec := ih (personalizedStep sciConv acc r)
    simp only [List.foldl_cons]
    exact ⟨hrec.1.trans hstep.1, hrec.2.trans hstep.2⟩

theorem processBatch_storage (sciConv : String → Option String)
    (template jobId : String) (st : St) (batch : List Recipient)
    (hpath : hasPlaceholders template = true ∨
      (hasPlaceholders template = false ∧ bulkValidPhones sciConv batch ≠ [] ∧
        ∃ e rest, st.gw = some e :: rest)) :
    ∃ st' fl, processBatch sciConv template jobId st batch = (storeFailed jobId st' fl, fl) ∧
      st'.store = st.store ∧ st'.index = st.index := by
  rcases hpath with hpers | ⟨hbulk, hvalid, e, rest, hgw⟩
  · rcases hpr : batch.foldl (personalizedStep sciConv) (st, []) with ⟨st', fl⟩
    refine ⟨st', fl, ?_, ?_, ?_⟩
    · unfold processBatch
      rw [hpers]
      simp only [if_true]
      rw [hpr]
    · have := (personalized_fold_store sciConv batch (st, [])).1
      rw [hpr] at this
      exact this
    · have := (personalized_fold_store sciConv batch (st, [])).2
      rw [hpr] at this
      exact this
  · refine ⟨{ st with gw := rest },
      bulkInvalidItems sciConv batch ++ batch.map fun r => (r, e), ?_, rfl, rfl⟩
    unfold processBatch
    rw [hbulk]
    simp only [Bool.false_eq_true, if_false]
    rw [if_neg hvalid, hgw]
    dsimp only [gwNext]

/-- C10 (amended): every batch that reaches the end-of-batch
failure-storage step with a non-empty failed-recipient list — that is,
every personalized-mode batch, and every bulk batch with valid phones
whose `sendBulk` threw — writes exactly one Failed-Batch Record under
`failed_batch:<jobId>:<timestamp>` with a 7-day expiry (`86400 * 7`
seconds), whose `batch` field is the failed list, whose top-level `error`
equals the error of the first recipient added to the failed list, and
whose key is prepended (`LPUSH`) to the job's failed-batch index list.
(Bulk batches that return early — a successful send, or a batch with no
valid phones — write no record even when recipients failed; see the
counterexample.) -/
theorem failed_batch_record_written (sciConv : String → Option String)
    (template jobId : String) (st : St) (batch : List Recipient)
    (hpath : hasPlaceholders template = true ∨
      (hasPlaceholders template = false ∧ bulkValidPhones sciConv batch ≠ [] ∧
        ∃ e rest, st.gw = some e :: rest))
    (hfail : (processBatch sciConv template jobId st batch).2 ≠ []) :
    ∃ t f fs, (processBatch sciConv template jobId st batch).2 = f :: fs ∧
      (processBatch sciConv template jobId st batch).1.store =
        ("failed_batch:" ++ jobId ++ ":" ++ toString t,
          ⟨f :: fs, f.2, t + 1, jobId⟩, 86400 * 7) :: st.store ∧
      (processBatch sciConv template jobId st batch).1.index =
        ("failed_batch:" ++ jobId ++ ":" ++ toString t) :: st.index := by
  obtain ⟨st', fl, heq, hstore, hindex⟩ :=
    processBatch_storage sciConv template jobId st batch hpath
  rw [heq] at hfail ⊢
  dsimp only at hfail ⊢
  cases fl with
  | nil => exact absurd rfl hfail
  | cons f fs =>
    refine ⟨st'.now, f, fs, rfl, ?_, ?_⟩
    · unfold storeFailed
      dsimp only [tick]
      rw [hstore]
    · unfold storeFailed
      dsimp only [tick]
      rw [hindex]

theorem failed_batch_record_written_witness :
    (hasPlaceholders "Hi \x7b\x7bname\x7d\x7d" = true ∧
        (processBatch (fun _ => none) "Hi \x7b\x7bname\x7d\x7d" "job-w10" (initialSt [])
          [⟨0, []⟩]).2 ≠ []) ∧
      ∃ t f fs,
        (processBatch (fun _ => none) "Hi \x7b\x7bname\x7d\x7d" "job-w10" (initialSt [])
            [⟨0, []⟩]).2 = f :: fs ∧
        (processBatch (fun _ => none) "Hi \x7b\x7bname\x7d\x7d" "job-w10" (initialSt [])
            [⟨0, []⟩]).1.store =
          ("failed_batch:" ++ "job-w10" ++ ":" ++ toString t,
            ⟨f :: fs, f.2, t + 1, "job-w10"⟩, 86400 * 7) :: (initialSt []).store ∧
        (processBatch (fun _ => none) "Hi \x7b\x7bname\x7d\x7d" "job-w10" (initialSt [])
            [⟨0, []⟩]).1.index =
          ("failed_batch:" ++ "job-w10" ++ ":" ++ toString t) :: (initialSt []).index :=
  ⟨⟨by decide, by decide⟩,
    failed_batch_record_written (fun _ => none) "Hi \x7b\x7bname\x7d\x7d" "job-w10"
      (initialSt []) [⟨0, []⟩] (Or.inl (by decide)) (by decide)⟩

/-- C10 counterexample: a bulk-uniform batch of two recipients, one with
a valid phone and one with none, whose `sendBulk` succeeds.  The batch
finishes with a non-empty failed-recipient list (the phoneless
recipient), yet no Failed-Batch Record is written and the failed-batch
index is untouched: the successful-send path returns before the storage
step. -/
theorem failed_batch_record_skipped_counterexample :
    (processBatch (fun _ => none) "hello" "job-c10" (initialSt [])
        [⟨0, [("phone", "08123456789")]⟩, ⟨1, []⟩]).2 =
        [(⟨1, []⟩, "No phone number found")] ∧
      (processBatch (fun _ => none) "hello" "job-c10" (initialSt [])
        [⟨0, [("phone", "08123456789")]⟩, ⟨1, []⟩]).1.store = [] ∧
      (processBatch (fun _ => none) "hello" "job-c10" (initialSt [])
        [⟨0, [("phone", "08123456789")]⟩, ⟨1, []⟩]).1.index = [] :=
  ⟨by decide, by decide, by decide⟩

theorem getJob_setJobState (q : List QJob) (i : String) (s : JobState) :
    getJob (setJobState q i s) i = (getJob q i).map fun j => { j with state := s } := by
  induction q with
  | nil => rfl
  | cons j t ih =>
    by_cases hj : j.id = i
    · simp [getJob, setJobState, List.find?_cons, hj] at ih ⊢
    · simp [getJob, setJobState, List.find?_cons, hj] at ih ⊢
      exact ih

theorem getJob_append_new (q : List QJob) (j : QJob) (h : getJob q j.id = none) :
    getJob (q ++ [j]) j.id = some j := by
  unfold getJob at h ⊢
  rw [List.find?_append, h]
  simp [List.find?_cons]

/-- C8: submitting the identical `(csv bytes, template, channel)` triple
twice, the second time while the first job is still non-terminal
(`waiting` or `active`), yields the same content-fingerprint job id
`sms-` + 16 hex chars of `md5(csv + template + channel)` both times, and
the second submission returns the existing job without creating a new
one: the queue after the second call is exactly the queue after the
first. -/
theorem upload_idempotent (md5hex : String → String) (q0 : List QJob)
    (csv tpl ch : String) (s : JobState)
    (hnew : getJob q0 (jobIdOf md5hex csv tpl ch) = none)
    (hs : s = JobState.waiting ∨ s = JobState.active) :
    (uploadRoute md5hex q0 true csv (some tpl) ch).1 =
        UploadResp.created (jobIdOf md5hex csv tpl ch) ∧
      (uploadRoute md5hex q0 true csv (some tpl) ch).2 =
        q0 ++ [⟨jobIdOf md5hex csv tpl ch, csv, tpl, ch, JobState.waiting⟩] ∧
      (uploadRoute md5hex
          (setJobState (uploadRoute md5hex q0 true csv (some tpl) ch).2
            (jobIdOf md5hex csv tpl ch) s)
          true csv (some tpl) ch).1 =
        UploadResp.alreadyExists (jobIdOf md5hex csv tpl ch)
          "Job already exists and is processing" ∧
      (uploadRoute md5hex
          (setJobState (uploadRoute md5hex q0 true csv (some tpl) ch).2
            (jobIdOf md5hex csv tpl ch) s)
          true csv (some tpl) ch).2 =
        setJobState (uploadRoute md5hex q0 true csv (some tpl) ch).2
          (jobIdOf md5hex csv tpl ch) s := by
  have h1 : uploadRoute md5hex q0 true csv (some tpl) ch =
      (UploadResp.created (jobIdOf md5hex csv tpl ch),
        q0 ++ [⟨jobIdOf md5hex csv tpl ch, csv, tpl, ch, JobState.waiting⟩]) := by
    unfold uploadRoute
    rw [if_neg (by simp)]
    dsimp only
    rw [hnew]
    unfold queueAdd
    rw [hnew]
  have h2 : getJob
      (setJobState (uploadRoute md5hex q0 true csv (some tpl) ch).2
        (jobIdOf md5hex csv tpl ch) s) (jobIdOf md5hex csv tpl ch) =
      some ⟨jobIdOf md5hex csv tpl ch, csv, tpl, ch, s⟩ := by
    rw [h1, getJob_setJobState]
    rw [getJob_append_new q0 ⟨jobIdOf md5hex csv tpl ch, csv, tpl, ch, JobState.waiting⟩
      hnew]
    rfl
  refine ⟨by rw [h1], by rw [h1], ?_, ?_⟩
  · conv_lhs => rw [uploadRoute]
    rw [if_neg (by simp)]
    dsimp only
    rw [h2]
    rcases hs with hs | hs <;> rw [hs]
  · conv_lhs => rw [uploadRoute]
    rw [if_neg (by simp)]
    dsimp only
    rw [h2]
    rcases hs with hs | hs <;> rw [hs]

theorem upload_idempotent_witness :
    (getJob [] (jobIdOf (fun _ => "0123456789abcdef0123456789abcdef") "a,b" "hi" "dnd") =
        none ∧
      (JobState.waiting = JobState.waiting ∨ JobState.waiting = JobState.active)) ∧
      (uploadRoute (fun _ => "0123456789abcdef0123456789abcdef") [] true "a,b" (some "hi")
          "dnd").1 =
        UploadResp.created
          (jobIdOf (fun _ => "0123456789abcdef0123456789abcdef") "a,b" "hi" "dnd") :=
  ⟨⟨by decide, Or.inl rfl⟩,
    (upload_idempotent (fun _ => "0123456789abcdef0123456789abcdef") [] "a,b" "hi" "dnd"
      JobState.waiting (by decide) (Or.inl rfl)).1⟩

theorem sendProgressStep_last (jobId state : String) (p : Progress) (t : Nat)
    (fs : FeedState) :
    (sendProgressStep jobId state p t fs).lastProgress =
      some (serializeSnapshot jobId state p t) := by
  unfold sendProgressStep
  dsimp only
  split
  · rename_i h
    exact h
  · rfl

/-- C9 (amended): a Progress Feed poll writes a data frame exactly when
its serialized snapshot differs (exact string equality) from the
previously emitted one — but the serialized snapshot embeds a fresh
per-poll `timestamp`, so two consecutive polls that observe an unchanged
Progress Record suppress the second frame if and only if the two
serialized snapshots (timestamps included) coincide; with distinct
timestamps the second poll emits again. -/
theorem sse_emit_iff (jobId state : String) (p : Progress) (t t' : Nat) (fs : FeedState) :
    (sendProgressStep jobId state p t' (sendProgressStep jobId state p t fs)).emitted =
        (sendProgressStep jobId state p t fs).emitted ↔
      serializeSnapshot jobId state p t' = serializeSnapshot jobId state p t := by
  have hl := sendProgressStep_last jobId state p t fs
  set s1 := sendProgressStep jobId state p t fs with hs1
  constructor
  · intro h
    by_contra hne
    rw [sendProgressStep] at h
    rw [hl] at h
    rw [if_neg (fun hc => hne (Option.some.inj hc).symm)] at h
    dsimp only at h
    have hlen := congrArg List.length h
    simp at hlen
  · intro h
    rw [sendProgressStep]
    rw [hl, h]
    rw [if_pos rfl]

/-- C9 counterexample: two consecutive polls at timestamps 0 and 1 that
both observe the identical Progress Record each emit a data frame — the
serialized snapshot embeds the poll timestamp, so "unchanged record"
does not imply suppression. -/
theorem sse_counterexample :
    (sendProgressStep "j" "active" Progress.empty 0 FeedState.init).emitted.length = 1 ∧
      (sendProgressStep "j" "active" Progress.empty 1
        (sendProgressStep "j" "active" Progress.empty 0 FeedState.init)).emitted.length =
        2 :=
  ⟨by decide, by decide⟩
